import Mathlib

/-!
Shallow embedding of `src/data/make_dataset.py` from the cleanBibImpact
repository.

The Python module chains four network-bound steps: `get_citing_dois`
(OpenCitations lookup), `names_from_xref` (Crossref author lookup),
`name_to_gender` (gender-api lookup) and `get_data` (per-cited-DOI loop),
followed by a module-level accumulation loop over three fixed cited DOIs.

Network responses are modelled as explicit inputs (an `Env` of response
functions), and Python runtime exceptions (`IndexError` on `[0]` of an
empty list, `UnboundLocalError` on returning a never-assigned variable)
are modelled with an `Except PyError` result.
-/

set_option autoImplicit false

namespace CleanBibImpact

/-- Python runtime exceptions that the embedded code can raise. -/
inductive PyError where
  | indexError : PyError
  | unboundLocal : PyError
deriving DecidableEq, Repr

/-- One element of the OpenCitations response array; the source reads the
field `item["citing"]`. -/
structure CitationItem where
  citing : String
deriving DecidableEq, Repr

/-- A Crossref author dict; `given = none` models the absence of the
`"given"` key (other keys of the dict are never read by the source). -/
structure AuthorDict where
  given : Option String := none
deriving DecidableEq, Repr

/-- One element of `works["message"]["items"]`; `author = none` models a
missing `"author"` key. -/
structure XrefItem where
  author : Option (List AuthorDict) := none
deriving DecidableEq, Repr

/-- The `works["message"]` object returned by `cr.works(...)`:
`total-results` and `items`. -/
structure XrefMessage where
  total_results : Int
  items : List XrefItem
deriving DecidableEq, Repr

/-- The gender-api JSON response: fields `gender` and `accuracy`. -/
structure GenderResponse where
  gender : String
  accuracy : Int
deriving DecidableEq, Repr

/-- `get_citing_dois`: the Python builds `citing_dois = []` and, when the
parsed response `items` is truthy (a nonempty list), appends
`item["citing"]` for each item in order. -/
def get_citing_dois (items : List CitationItem) : List String :=
  if items.isEmpty then [] else items.map (fun item => item.citing)

/-- Python `str.replace(".", " ")` for the one-character pattern `"."`:
every period becomes a space (character-level map, since the pattern is a
single character). -/
def pyReplaceDots (s : String) : String :=
  String.mk (s.data.map (fun c => if c = '.' then ' ' else c))

/-- Python `str.split()` with no argument: split on whitespace,
discarding empty pieces (so runs of whitespace act as one separator and
leading/trailing whitespace yields no token). -/
def pySplit (s : String) : List String :=
  ((s.data.splitOnP Char.isWhitespace).map (fun cs => String.mk cs)).filter
    (fun t => t ≠ "")

/-- `get_name_from_author_dict`: if `"given"` is absent return `""`,
otherwise `author_dict["given"].replace(".", " ").split()[0]`; the `[0]`
raises `IndexError` when the split yields no token. -/
def get_name_from_author_dict (author_dict : AuthorDict) : Except PyError String :=
  match author_dict.given with
  | none => .ok ""
  | some g =>
      match pySplit (pyReplaceDots g) with
      | [] => .error .indexError
      | name :: _ => .ok name

/-- `names_from_xref`: when `total-results > 0` take `items[0]`; if it has
an `"author"` key take the names of `author[0]` and `author[-1]`, else
both names are `""`. When `total-results` is not positive, neither
`first_author` nor `last_author` is ever assigned and the trailing
`return first_author, last_author` raises `UnboundLocalError`. -/
def names_from_xref (works : XrefMessage) : Except PyError (String × String) :=
  if works.total_results > 0 then
    match works.items with
    | [] => .error .indexError
    | item :: _ =>
      match item.author with
      | none => .ok ("", "")
      | some [] => .error .indexError
      | some (a :: rest) =>
          match get_name_from_author_dict a with
          | .error e => .error e
          | .ok first_author =>
              match get_name_from_author_dict ((a :: rest).getLast (List.cons_ne_nil a rest)) with
              | .error e => .error e
              | .ok last_author => .ok (first_author, last_author)
  else
    .error .unboundLocal

/-- `name_to_gender`: a pass-through of the gender-api response for the
queried name; `service` models the HTTP GET `/get?key=...&name={name}`. -/
def name_to_gender (service : String → GenderResponse) (name : String) : String × Int :=
  ((service name).gender, (service name).accuracy)

/-- The fields the `get_data` loop body writes at row `n` of the frame. -/
structure CitingRecord where
  doi : String
  first_author_name : String
  first_author_gender : String
  first_author_gender_accuracy : Int
  last_author_name : String
  last_author_gender : String
  last_author_gender_accuracy : Int
deriving DecidableEq, Repr

/-- The external world of the script: the three HTTP endpoints, each
modelled as a function from request parameter to parsed response. -/
structure Env where
  citations : String → List CitationItem
  xref : String → XrefMessage
  genderSvc : String → GenderResponse

/-- The body of the `for n, citing_doi in enumerate(df["doi"])` loop in
`get_data`: resolve names, infer both genders, write one row. Any
exception raised by `names_from_xref` propagates (there is no
try/except in the source). -/
def build_row (env : Env) (citing_doi : String) : Except PyError CitingRecord :=
  match names_from_xref (env.xref citing_doi) with
  | .error e => .error e
  | .ok (fa_name, la_name) =>
      let (fa_gender, fa_accuracy) := name_to_gender env.genderSvc fa_name
      let (la_gender, la_accuracy) := name_to_gender env.genderSvc la_name
      .ok { doi := citing_doi
            first_author_name := fa_name
            first_author_gender := fa_gender
            first_author_gender_accuracy := fa_accuracy
            last_author_name := la_name
            last_author_gender := la_gender
            last_author_gender_accuracy := la_accuracy }

/-- The `get_data` loop over the citing DOIs, in order; the first raised
exception aborts the loop (and the partially built frame is lost). -/
def build_rows (env : Env) : List String → Except PyError (List CitingRecord)
  | [] => .ok []
  | d :: rest =>
      match build_row env d with
      | .error e => .error e
      | .ok r =>
          match build_rows env rest with
          | .error e => .error e
          | .ok more => .ok (r :: more)

/-- `get_data`: fetch the citing DOIs of `cited_doi`, then, if any were
found, run the enrichment loop over them in order. -/
def get_data (env : Env) (cited_doi : String) : Except PyError (List CitingRecord) :=
  let dois := get_citing_dois (env.citations cited_doi)
  if dois.length > 0 then build_rows env dois else .ok []

/-- One row of the final `citing_papers` frame: a `get_data` row tagged
with `cited_entity` and `cited_doi` by the module-level loop. -/
structure TaggedRecord where
  record : CitingRecord
  cited_entity : String
  cited_doi : String
deriving DecidableEq, Repr

/-- The module-level accumulation loop: for each `(cited_entity, doi)` in
order, run `get_data`, tag its rows, and append them to the running
`citing_papers` frame. An exception from `get_data` propagates and kills
the whole script. -/
def run_pipeline (env : Env) : List (String × String) → Except PyError (List TaggedRecord)
  | [] => .ok []
  | (entity, doi) :: rest =>
      match get_data env doi with
      | .error e => .error e
      | .ok df =>
          match run_pipeline env rest with
          | .error e => .error e
          | .ok more =>
              .ok ((df.map (fun r =>
                { record := r, cited_entity := entity, cited_doi := doi })) ++ more)

/-- The fixed `cited_dois` dict of the script, in insertion order. -/
def cited_dois : List (String × String) :=
  [("paper", "10.1038/s41593-020-0658-y"),
   ("preprint", "10.1101/2020.01.03.894378"),
   ("code", "10.5281/zenodo.3672109")]

/-- The discovery order of the run: for each cited work in input order,
the `(cited_entity, cited_doi, citing_doi)` triples of its citing DOIs in
the order the citation index returned them. -/
def discovery (env : Env) : List (String × String) → List (String × String × String)
  | [] => []
  | w :: rest =>
      (get_citing_dois (env.citations w.2)).map (fun d => (w.1, w.2, d)) ++ discovery env rest

/-- A Crossref response matching one work whose single author is `Jane`. -/
def janeWork : XrefMessage :=
  { total_results := 1, items := [{ author := some [{ given := some "Jane" }] }] }

/-- The row the `get_data` loop writes for citing DOI `d` when Crossref
answers `janeWork` and the gender service answers `("female", 95)`. -/
def janeRecord (d : String) : CitingRecord :=
  { doi := d
    first_author_name := "Jane"
    first_author_gender := "female"
    first_author_gender_accuracy := 95
    last_author_name := "Jane"
    last_author_gender := "female"
    last_author_gender_accuracy := 95 }

/-- Environment in which only the cited paper has a citing DOI. -/
def envDemo : Env :=
  { citations := fun d =>
      if d = "10.1038/s41593-020-0658-y" then [{ citing := "10.0/A" }] else []
    xref := fun _ => janeWork
    genderSvc := fun _ => { gender := "female", accuracy := 95 } }

/-- Environment in which the cited paper has citing DOIs `10.0/bad` (whose
Crossref lookup reports zero results) and `10.0/good` (which resolves). -/
def envFail : Env :=
  { citations := fun d =>
      if d = "10.1038/s41593-020-0658-y" then
        [{ citing := "10.0/bad" }, { citing := "10.0/good" }]
      else []
    xref := fun d => if d = "10.0/good" then janeWork else { total_results := 0, items := [] }
    genderSvc := fun _ => { gender := "female", accuracy := 95 } }

/-- Environment in which the citation index lists the same citing DOI
twice for the cited paper. -/
def envDup : Env :=
  { citations := fun d =>
      if d = "10.1038/s41593-020-0658-y" then
        [{ citing := "10.0/A" }, { citing := "10.0/A" }]
      else []
    xref := fun _ => janeWork
    genderSvc := fun _ => { gender := "female", accuracy := 95 } }

/-- Environment in which the same citing DOI cites both the paper and the
preprint (and the code has no citations). -/
def envCross : Env :=
  { citations := fun d =>
      if d = "10.5281/zenodo.3672109" then [] else [{ citing := "10.0/A" }]
    xref := fun _ => janeWork
    genderSvc := fun _ => { gender := "female", accuracy := 95 } }

/-- The dataset produced by the run under `envDemo`. -/
def demoRes : List TaggedRecord :=
  [{ record := janeRecord "10.0/A", cited_entity := "paper",
     cited_doi := "10.1038/s41593-020-0658-y" }]

/-- The dataset produced by the run under `envDup`: the duplicated citing
DOI yields two identical rows under the same cited work. -/
def dupRes : List TaggedRecord :=
  [{ record := janeRecord "10.0/A", cited_entity := "paper",
     cited_doi := "10.1038/s41593-020-0658-y" },
   { record := janeRecord "10.0/A", cited_entity := "paper",
     cited_doi := "10.1038/s41593-020-0658-y" }]

/-- The dataset produced by the run under `envCross`: the same citing DOI
appears once under the paper and once under the preprint. -/
def crossRes : List TaggedRecord :=
  [{ record := janeRecord "10.0/A", cited_entity := "paper",
     cited_doi := "10.1038/s41593-020-0658-y" },
   { record := janeRecord "10.0/A", cited_entity := "preprint",
     cited_doi := "10.1101/2020.01.03.894378" }]

/-! ## Helper lemmas -/

/-- A row built for `citing_doi` carries that DOI in its `doi` field. -/
theorem build_row_doi {env : Env} {d : String} {r : CitingRecord}
    (h : build_row env d = .ok r) : r.doi = d := by
  unfold build_row at h
  cases hn : names_from_xref (env.xref d) with
  | error e => rw [hn] at h; exact absurd h (by simp)
  | ok p =>
      obtain ⟨fa, la⟩ := p
      rw [hn] at h
      injection h with h2
      rw [← h2]

/-- A successful `build_rows` returns one row per citing DOI, in order. -/
theorem build_rows_map_doi {env : Env} : ∀ {ds : List String} {rows : List CitingRecord},
    build_rows env ds = .ok rows → rows.map (fun r => r.doi) = ds := by
  intro ds
  induction ds with
  | nil =>
      intro rows h
      unfold build_rows at h
      injection h with h2
      rw [← h2]
      rfl
  | cons d rest ih =>
      intro rows h
      unfold build_rows at h
      cases hb : build_row env d with
      | error e => rw [hb] at h; exact absurd h (by simp)
      | ok r =>
          rw [hb] at h
          cases hrest : build_rows env rest with
          | error e => rw [hrest] at h; exact absurd h (by simp)
          | ok more =>
              rw [hrest] at h
              injection h with h2
              rw [← h2]
              simp [build_row_doi hb, ih hrest]

/-- A successful `build_rows` built every listed citing DOI. -/
theorem build_rows_mem {env : Env} : ∀ {ds : List String} {rows : List CitingRecord},
    build_rows env ds = .ok rows → ∀ {d : String}, d ∈ ds →
      ∃ r, build_row env d = .ok r := by
  intro ds
  induction ds with
  | nil => intro rows _ d hd; exact absurd hd (by simp)
  | cons d0 rest ih =>
      intro rows h d hd
      unfold build_rows at h
      cases hb : build_row env d0 with
      | error e => rw [hb] at h; exact absurd h (by simp)
      | ok r =>
          rw [hb] at h
          cases hrest : build_rows env rest with
          | error e => rw [hrest] at h; exact absurd h (by simp)
          | ok more =>
              cases List.mem_cons.mp hd with
              | inl heq => exact ⟨r, heq ▸ hb⟩
              | inr hmem => exact ih hrest hmem

/-- A successful `get_data` returns one row per citing DOI, in order. -/
theorem get_data_map_doi {env : Env} {doi : String} {df : List CitingRecord}
    (h : get_data env doi = .ok df) :
    df.map (fun r => r.doi) = get_citing_dois (env.citations doi) := by
  simp only [get_data] at h
  split at h
  · exact build_rows_map_doi h
  · next hl =>
      injection h with h2
      rw [← h2]
      have hnil : get_citing_dois (env.citations doi) = [] :=
        List.length_eq_zero.mp (by omega)
      rw [hnil]
      rfl

/-- A successful `get_data` built every citing DOI the index returned. -/
theorem get_data_mem {env : Env} {doi : String} {df : List CitingRecord}
    (h : get_data env doi = .ok df) {d : String}
    (hd : d ∈ get_citing_dois (env.citations doi)) :
    ∃ r, build_row env d = .ok r := by
  simp only [get_data] at h
  split at h
  · exact build_rows_mem h hd
  · next hl =>
      have hnil : get_citing_dois (env.citations doi) = [] :=
        List.length_eq_zero.mp (by omega)
      rw [hnil] at hd
      exact absurd hd (by simp)

/-- A successful run lists its rows in exactly the discovery order. -/
theorem run_pipeline_map_discovery {env : Env} :
    ∀ {works : List (String × String)} {res : List TaggedRecord},
    run_pipeline env works = .ok res →
    res.map (fun r => (r.cited_entity, r.cited_doi, r.record.doi)) = discovery env works := by
  intro works
  induction works with
  | nil =>
      intro res h
      unfold run_pipeline at h
      injection h with h2
      rw [← h2]
      rfl
  | cons w rest ih =>
      obtain ⟨entity, doi⟩ := w
      intro res h
      unfold run_pipeline at h
      cases hg : get_data env doi with
      | error e => rw [hg] at h; exact absurd h (by simp)
      | ok df =>
          rw [hg] at h
          cases hr : run_pipeline env rest with
          | error e => rw [hr] at h; exact absurd h (by simp)
          | ok more =>
              rw [hr] at h
              injection h with h2
              rw [← h2]
              simp only [discovery, List.map_append, List.map_map, ih hr]
              congr 1
              rw [← get_data_map_doi hg, List.map_map]
              rfl

/-- A successful run built every citing DOI of every cited work. -/
theorem run_pipeline_ok_builds {env : Env} :
    ∀ {works : List (String × String)} {res : List TaggedRecord},
    run_pipeline env works = .ok res →
    ∀ w ∈ works, ∀ d ∈ get_citing_dois (env.citations w.2),
      ∃ r, build_row env d = .ok r := by
  intro works
  induction works with
  | nil => intro res _ w hw; exact absurd hw (by simp)
  | cons w0 rest ih =>
      obtain ⟨entity, doi⟩ := w0
      intro res h w hw d hd
      unfold run_pipeline at h
      cases hg : get_data env doi with
      | error e => rw [hg] at h; exact absurd h (by simp)
      | ok df =>
          rw [hg] at h
          cases hr : run_pipeline env rest with
          | error e => rw [hr] at h; exact absurd h (by simp)
          | ok more =>
              cases List.mem_cons.mp hw with
              | inl heq => exact get_data_mem hg (by rw [heq] at hd; exact hd)
              | inr hmem => exact ih hr w hmem d hd

/-- Every triple in the discovery order comes from one of the cited works
and one of its citing DOIs. -/
theorem mem_discovery {env : Env} :
    ∀ {works : List (String × String)} {t : String × String × String},
    t ∈ discovery env works →
    ∃ w ∈ works, t.1 = w.1 ∧ t.2.1 = w.2 ∧ t.2.2 ∈ get_citing_dois (env.citations w.2) := by
  intro works
  induction works with
  | nil => intro t ht; exact absurd ht (by simp [discovery])
  | cons w rest ih =>
      intro t ht
      rw [discovery, List.mem_append] at ht
      cases ht with
      | inl hhead =>
          obtain ⟨d, hd, hdt⟩ := List.mem_map.mp hhead
          exact ⟨w, List.mem_cons_self w rest, by rw [← hdt], by rw [← hdt],
            by rw [← hdt]; exact hd⟩
      | inr htail =>
          obtain ⟨w2, hw2, h1, h2, h3⟩ := ih htail
          exact ⟨w2, List.mem_cons_of_mem w hw2, h1, h2, h3⟩

/-- When the cited works have pairwise distinct DOIs and each citation
list is duplicate-free, each `(citing, cited)` DOI pair occurs at most
once in the discovery order. -/
theorem countP_discovery {env : Env} (D W : String) :
    ∀ {works : List (String × String)},
    (works.map Prod.snd).Nodup →
    (∀ w ∈ works, (get_citing_dois (env.citations w.2)).Nodup) →
    (discovery env works).countP (fun t => t.2.2 == D && t.2.1 == W) ≤ 1 := by
  intro works
  induction works with
  | nil => intro _ _; simp [discovery]
  | cons w rest ih =>
      intro hn hd
      rw [List.map_cons, List.nodup_cons] at hn
      obtain ⟨hwn, hrn⟩ := hn
      rw [discovery, List.countP_append]
      by_cases hW : w.2 = W
      · have h1 : ((get_citing_dois (env.citations w.2)).map
            (fun d => (w.1, w.2, d))).countP (fun t => t.2.2 == D && t.2.1 == W) ≤ 1 := by
          rw [List.countP_map]
          have hfun : ((fun (t : String × String × String) => t.2.2 == D && t.2.1 == W) ∘
              (fun d => (w.1, w.2, d))) = fun d => d == D := by
            funext d
            simp [Function.comp, hW]
          rw [hfun]
          exact List.nodup_iff_count_le_one.mp (hd w (List.mem_cons_self w rest)) D
        have h2 : (discovery env rest).countP (fun t => t.2.2 == D && t.2.1 == W) = 0 := by
          rw [List.countP_eq_zero]
          intro t ht
          obtain ⟨w2, hw2, _, ht2, _⟩ := mem_discovery ht
          simp only [Bool.and_eq_true, beq_iff_eq, not_and]
          intro _ htW
          exact hwn (List.mem_map.mpr ⟨w2, hw2, by rw [← ht2, htW, hW]⟩)
        omega
      · have h1 : ((get_citing_dois (env.citations w.2)).map
            (fun d => (w.1, w.2, d))).countP (fun t => t.2.2 == D && t.2.1 == W) = 0 := by
          rw [List.countP_eq_zero]
          intro t ht
          obtain ⟨d, _, hdt⟩ := List.mem_map.mp ht
          simp only [Bool.and_eq_true, beq_iff_eq, not_and]
          intro _ htW
          rw [← hdt] at htW
          exact hW htW
        have h2 := ih hrn (fun w2 hw2 => hd w2 (List.mem_cons_of_mem w hw2))
        omega

/-! ## Claim theorems -/

/-- C1: the claim asks that `names_from_xref` return well-defined empty
author results when the metadata index reports `total-results: 0`; the
code instead never assigns `first_author`/`last_author` on that path and
raises `UnboundLocalError` at the `return` — evaluated here at the
mocked zero-result response. -/
theorem names_from_xref_zero_results_unbound :
    names_from_xref { total_results := 0, items := [] } = .error .unboundLocal := rfl

/-- C5: `get_name_from_author_dict` returns `""` when the entry lacks a
`"given"` field, and otherwise the first whitespace-delimited token of
the given-name string after periods are replaced by spaces; in
particular `{"given": "J. D."}` yields `"J"` and `{}` yields `""`. -/
theorem get_name_from_author_dict_spec (d : AuthorDict) :
    (d.given = none → get_name_from_author_dict d = .ok "") ∧
    (∀ g t ts, d.given = some g → pySplit (pyReplaceDots g) = t :: ts →
        get_name_from_author_dict d = .ok t) ∧
    get_name_from_author_dict { given := some "J. D." } = .ok "J" ∧
    get_name_from_author_dict { given := none } = .ok "" := by
  refine ⟨?_, ?_, rfl, rfl⟩
  · intro h
    simp [get_name_from_author_dict, h]
  · intro g t ts hg hsplit
    simp [get_name_from_author_dict, hg, hsplit]

/-- C5 witness: the generic token case of `get_name_from_author_dict_spec`
instantiated at the author entry `{"given": "Jane Ann"}`. -/
theorem get_name_from_author_dict_spec_witness :
    get_name_from_author_dict { given := some "Jane Ann" } = .ok "Jane" :=
  (get_name_from_author_dict_spec { given := some "Jane Ann" }).2.1
    "Jane Ann" "Jane" ["Ann"] rfl (by decide)

/-- C6: `get_citing_dois` returns the `citing` field of each response
item, in response order, and returns `[]` on the empty response array
without raising. -/
theorem get_citing_dois_spec (items : List CitationItem) :
    get_citing_dois items = items.map (fun item => item.citing) ∧
    get_citing_dois [] = [] := by
  refine ⟨?_, rfl⟩
  cases items <;> simp [get_citing_dois]

/-- C8: `name_to_gender` on the empty name is a pass-through of the
service response; whenever the gender service classifies the empty name
as the sentinel `("unknown", 0)` — as the external interface specifies —
the function returns exactly that, without failing. -/
theorem name_to_gender_empty_name (service : String → GenderResponse)
    (h : service "" = { gender := "unknown", accuracy := 0 }) :
    name_to_gender service "" = ("unknown", 0) := by
  simp [name_to_gender, h]

/-- C8 witness: `name_to_gender_empty_name` at a concrete service. -/
theorem name_to_gender_empty_name_witness :
    name_to_gender (fun _ => { gender := "unknown", accuracy := 0 }) "" = ("unknown", 0) :=
  name_to_gender_empty_name (fun _ => { gender := "unknown", accuracy := 0 }) rfl

/-- C9: `get_name_from_author_dict` is partial on present-but-degenerate
given names: when `"given"` is present but tokenizes to nothing it
raises `IndexError`, and it returns a string only when `"given"` is
absent or yields at least one token. -/
theorem get_name_from_author_dict_partial :
    (∀ d g, d.given = some g → pySplit (pyReplaceDots g) = [] →
        get_name_from_author_dict d = .error .indexError) ∧
    (∀ d s, get_name_from_author_dict d = .ok s →
        d.given = none ∨
          ∃ g t ts, d.given = some g ∧ pySplit (pyReplaceDots g) = t :: ts) := by
  constructor
  · intro d g hg hsplit
    simp [get_name_from_author_dict, hg, hsplit]
  · intro d s h
    cases hd : d.given with
    | none => exact Or.inl rfl
    | some g =>
        refine Or.inr ?_
        cases hsplit : pySplit (pyReplaceDots g) with
        | nil => simp [get_name_from_author_dict, hd, hsplit] at h
        | cons t ts => exact ⟨g, t, ts, rfl, hsplit⟩

/-- C9 witness: `get_name_from_author_dict_partial` at the degenerate
entry `{"given": ". ."}` (periods and whitespace only). -/
theorem get_name_from_author_dict_partial_witness :
    get_name_from_author_dict { given := some ". ." } = .error .indexError :=
  get_name_from_author_dict_partial.1 { given := some ". ." } ". ." rfl (by decide)

/-- C7: when the metadata index matches a work, `names_from_xref`
returns `("", "")` if the work has no `"author"` list, and otherwise the
names derived (via `get_name_from_author_dict`) from the positionally
first and positionally last entries of the author sequence. -/
theorem names_from_xref_author_cases (works : XrefMessage) (item : XrefItem)
    (rest : List XrefItem) (hpos : works.total_results > 0)
    (hitems : works.items = item :: rest) :
    (item.author = none → names_from_xref works = .ok ("", "")) ∧
    (∀ a as f l, item.author = some (a :: as) →
        get_name_from_author_dict a = .ok f →
        get_name_from_author_dict ((a :: as).getLast (List.cons_ne_nil a as)) = .ok l →
        names_from_xref works = .ok (f, l)) := by
  constructor
  · intro hauthor
    simp [names_from_xref, hpos, hitems, hauthor]
  · intro a as f l hauthor hf hl
    simp [names_from_xref, hpos, hitems, hauthor, hf, hl]

/-- C7 witness: `names_from_xref_author_cases` at a matched work with
authors `Jane` and `John`: the first and last entries are used. -/
theorem names_from_xref_author_cases_witness :
    names_from_xref
        { total_results := 1,
          items := [{ author := some [{ given := some "Jane" }, { given := some "John" }] }] }
      = .ok ("Jane", "John") :=
  (names_from_xref_author_cases
      { total_results := 1,
        items := [{ author := some [{ given := some "Jane" }, { given := some "John" }] }] }
      { author := some [{ given := some "Jane" }, { given := some "John" }] } []
      (by decide) rfl).2
    { given := some "Jane" } [{ given := some "John" }] "Jane" "John" rfl rfl rfl

/-- C10: when the matched work's author list has exactly one entry, both
returned names are derived from that single entry, so they coincide
whenever `names_from_xref` returns. -/
theorem names_from_xref_single_author (works : XrefMessage) (item : XrefItem)
    (rest : List XrefItem) (a : AuthorDict) (hpos : works.total_results > 0)
    (hitems : works.items = item :: rest) (hauthor : item.author = some [a]) :
    (names_from_xref works =
      match get_name_from_author_dict a with
      | .error e => .error e
      | .ok n => .ok (n, n)) ∧
    (∀ f l, names_from_xref works = .ok (f, l) → f = l) := by
  have h1 : names_from_xref works =
      match get_name_from_author_dict a with
      | .error e => .error e
      | .ok n => .ok (n, n) := by
    simp only [names_from_xref, hpos, if_pos, hitems, hauthor]
    cases hget : get_name_from_author_dict a with
    | error e => simp [List.getLast, hget]
    | ok n => simp [List.getLast, hget]
  refine ⟨h1, ?_⟩
  intro f l hok
  rw [h1] at hok
  cases hget : get_name_from_author_dict a with
  | error e => rw [hget] at hok; exact absurd hok (by simp)
  | ok n => rw [hget] at hok; injection hok with hp; injection hp with hf hl; rw [← hf, ← hl]

/-- C10 witness: `names_from_xref_single_author` at a single-author work:
first and last names are both `"Jane"`. -/
theorem names_from_xref_single_author_witness :
    names_from_xref { total_results := 1, items := [{ author := some [{ given := some "Jane" }] }] }
      = .ok ("Jane", "Jane") := by
  rw [(names_from_xref_single_author
      { total_results := 1, items := [{ author := some [{ given := some "Jane" }] }] }
      { author := some [{ given := some "Jane" }] } [] { given := some "Jane" }
      (by decide) rfl rfl).1]
  rfl

/-- C2 counterexample: under `envFail` the first citing DOI of the paper
fails author resolution; the claim says only that DOI is skipped and the
run continues, but the run aborts with the error and produces no dataset,
even though the second citing DOI builds successfully. -/
theorem get_data_failure_not_caught :
    run_pipeline envFail cited_dois = .error .unboundLocal ∧
    build_row envFail "10.0/good" = .ok (janeRecord "10.0/good") :=
  ⟨rfl, rfl⟩

/-- C2 amended: no per-citing-DOI failure is caught anywhere — if author
resolution or gender inference fails for any citing DOI of any cited
work, the exception propagates out of `get_data` and the module-level
loop, and the whole run aborts with an error instead of a dataset. -/
theorem build_row_failure_aborts_run (env : Env) (works : List (String × String))
    (w : String × String) (hw : w ∈ works) (d : String)
    (hd : d ∈ get_citing_dois (env.citations w.2)) (e : PyError)
    (hfail : build_row env d = .error e) :
    ∃ e2, run_pipeline env works = .error e2 := by
  cases hrun : run_pipeline env works with
  | error e2 => exact ⟨e2, rfl⟩
  | ok res =>
      obtain ⟨r, hr⟩ := run_pipeline_ok_builds hrun w hw d hd
      rw [hfail] at hr
      exact absurd hr (by simp)

/-- C2 witness: `build_row_failure_aborts_run` at `envFail`, where the
citing DOI `10.0/bad` of the cited paper fails author resolution. -/
theorem build_row_failure_aborts_run_witness :
    ∃ e2, run_pipeline envFail cited_dois = .error e2 :=
  build_row_failure_aborts_run envFail cited_dois
    ("paper", "10.1038/s41593-020-0658-y") (by decide) "10.0/bad" (by decide)
    .unboundLocal rfl

/-- C3 counterexample: when the citation index lists the same citing DOI
twice for the cited paper, the run succeeds and the dataset holds two
records for that `(citing DOI, cited_doi)` pair, refuting "at most one
record per (D, cited_doi) pair". -/
theorem duplicate_citing_doi_two_records :
    run_pipeline envDup cited_dois = .ok dupRes ∧
    dupRes.countP (fun r =>
      r.record.doi == "10.0/A" && r.cited_doi == "10.1038/s41593-020-0658-y") = 2 :=
  ⟨rfl, rfl⟩

/-- C3 amended: every record of a successful run carries the entity tag
and DOI of one of the processed cited works, and — provided the cited
works have pairwise distinct DOIs and the citation index returned each
citing DOI at most once per cited work — the dataset has at most one
record per `(citing DOI, cited_doi)` pair; the same citing DOI may still
appear under different cited works, as the `envCross` run shows. -/
theorem dataset_cited_doi_and_multiplicity (env : Env) (works : List (String × String))
    (res : List TaggedRecord) (hrun : run_pipeline env works = .ok res)
    (hworks : (works.map Prod.snd).Nodup)
    (hdois : ∀ w ∈ works, (get_citing_dois (env.citations w.2)).Nodup) :
    (∀ r ∈ res, ∃ w ∈ works, r.cited_entity = w.1 ∧ r.cited_doi = w.2) ∧
    (∀ D W, res.countP (fun r => r.record.doi == D && r.cited_doi == W) ≤ 1) ∧
    (run_pipeline envCross cited_dois = .ok crossRes ∧
      crossRes.countP (fun r =>
        r.record.doi == "10.0/A" && r.cited_doi == "10.1038/s41593-020-0658-y") = 1 ∧
      crossRes.countP (fun r =>
        r.record.doi == "10.0/A" && r.cited_doi == "10.1101/2020.01.03.894378") = 1) := by
  refine ⟨?_, ?_, rfl, rfl, rfl⟩
  · intro r hr
    have hmap := run_pipeline_map_discovery hrun
    have hkey : (r.cited_entity, r.cited_doi, r.record.doi) ∈ discovery env works := by
      rw [← hmap]
      exact List.mem_map.mpr ⟨r, hr, rfl⟩
    obtain ⟨w, hw, h1, h2, _⟩ := mem_discovery hkey
    exact ⟨w, hw, h1, h2⟩
  · intro D W
    have hcnt : res.countP (fun r => r.record.doi == D && r.cited_doi == W)
        = (discovery env works).countP (fun t => t.2.2 == D && t.2.1 == W) := by
      rw [← run_pipeline_map_discovery hrun, List.countP_map]
      rfl
    rw [hcnt]
    exact countP_discovery D W hworks hdois

/-- C3 witness: `dataset_cited_doi_and_multiplicity` at the `envCross`
run, bounding the count of the pair (`10.0/A`, paper DOI). -/
theorem dataset_cited_doi_and_multiplicity_witness :
    crossRes.countP (fun r =>
      r.record.doi == "10.0/A" && r.cited_doi == "10.1038/s41593-020-0658-y") ≤ 1 :=
  (dataset_cited_doi_and_multiplicity envCross cited_dois crossRes rfl
      (by decide) (by decide)).2.1 "10.0/A" "10.1038/s41593-020-0658-y"

/-- C4: the dataset of a successful run is ordered exactly by discovery:
its rows, projected to `(cited_entity, cited_doi, citing doi)`, are the
cited works in input order with, inside each, the citing DOIs in the
order the citation index returned them. -/
theorem run_pipeline_discovery_order (env : Env) (works : List (String × String))
    (res : List TaggedRecord) (hrun : run_pipeline env works = .ok res) :
    res.map (fun r => (r.cited_entity, r.cited_doi, r.record.doi)) = discovery env works :=
  run_pipeline_map_discovery hrun

/-- C4 witness: `run_pipeline_discovery_order` at the `envDemo` run. -/
theorem run_pipeline_discovery_order_witness :
    demoRes.map (fun r => (r.cited_entity, r.cited_doi, r.record.doi))
      = discovery envDemo cited_dois :=
  run_pipeline_discovery_order envDemo cited_dois demoRes rfl

end CleanBibImpact
